import Mathlib

/-!
Shallow embedding of the bootstrap / teardown / single-instance core of
`src/libvlc-common.c` (libvlc instance creation and deletion), together with
theorems settling the specification claims about it.

Conventions: C `unsigned int` is modelled as `Nat` with explicit wrap at
`2 ^ 32`; C strings are `List Char`; fallible pointers are `Option`; the
external collaborators (threads, D-Bus, module bank internals) are modelled
by the values they feed into the control flow under verification, and by
ghost counters recording how often an external effect was invoked.
-/

namespace Libvlc

/-- Width of C `unsigned int` (the type of the global `i_instances`). -/
def wUINT : Nat := 2 ^ 32

/-- The process-global shared record `libvlc_global` together with the
file-scope counter `i_instances`.  `teardownRuns` is a ghost counter for the
number of times the process-wide teardown (`system_End` followed by
`LocaleDeinit`) has run; `capComputes` counts invocations of
`CPUCapabilities()`. -/
structure GlobalState where
  i_instances : Nat
  b_ready : Bool
  i_cpu : Nat
  teardownRuns : Nat
  capComputes : Nat
  deriving Repr, DecidableEq

/-- The state of the globals at process start: static zero-initialised. -/
def initialGlobal : GlobalState :=
  { i_instances := 0, b_ready := false, i_cpu := 0,
    teardownRuns := 0, capComputes := 0 }

/-- Effect of `libvlc_InternalCreate` on the globals (lines 168-193 of
`libvlc-common.c`): under the `"libvlc"` mutex, `i_instances++`; if
`libvlc_global.b_ready` is false, compute the CPU capabilities (`cpuCaps` is
the value the external `CPUCapabilities()` would return), leave the module
bank for later, and set `b_ready` to true.  `b_ready` is never reset by any
code path in the file. -/
def internalCreateGlobal (cpuCaps : Nat) (s : GlobalState) : GlobalState :=
  let s := { s with i_instances := (s.i_instances + 1) % wUINT }
  if s.b_ready then s
  else { s with i_cpu := cpuCaps, b_ready := true,
                capComputes := s.capComputes + 1 }

/-- Effect of `libvlc_InternalDestroy` on the globals (lines 1091-1105):
under the `"libvlc"` mutex, `i_instances--` (unsigned, so decrementing 0
wraps to `2 ^ 32 - 1`); if the count is now 0, run `system_End` and
`LocaleDeinit` (recorded in the ghost counter `teardownRuns`).  Nothing
touches `b_ready`. -/
def internalDestroyGlobal (s : GlobalState) : GlobalState :=
  let n := if s.i_instances = 0 then wUINT - 1 else s.i_instances - 1
  let s := { s with i_instances := n }
  if n = 0 then { s with teardownRuns := s.teardownRuns + 1 } else s

/-- One lifecycle event: an instance being created or destroyed. -/
inductive LifeOp
  | acquire
  | release
  deriving Repr, DecidableEq

/-- Run a sequence of create / destroy events against the globals. -/
def runOps (cpuCaps : Nat) (s : GlobalState) : List LifeOp → GlobalState
  | [] => s
  | LifeOp.acquire :: rest => runOps cpuCaps (internalCreateGlobal cpuCaps s) rest
  | LifeOp.release :: rest => runOps cpuCaps (internalDestroyGlobal s) rest

/-- `okFrom bal t`: starting from `bal` live instances, every release in `t`
is matched by an earlier acquire (the balance never goes below zero). -/
def okFrom (bal : Nat) : List LifeOp → Bool
  | [] => true
  | LifeOp.acquire :: rest => okFrom (bal + 1) rest
  | LifeOp.release :: rest => decide (0 < bal) && okFrom (bal - 1) rest

/-- Balance of live instances after running the trace from `bal`. -/
def endBal (bal : Nat) : List LifeOp → Nat
  | [] => bal
  | LifeOp.acquire :: rest => endBal (bal + 1) rest
  | LifeOp.release :: rest => endBal (bal - 1) rest

/-- `posMid bal t`: the running balance is strictly positive after every
event of `t` except possibly the last one. -/
def posMid (bal : Nat) : List LifeOp → Bool
  | [] => true
  | op :: rest =>
      let b := match op with
        | LifeOp.acquire => bal + 1
        | LifeOp.release => bal - 1
      (decide (rest = []) || decide (0 < b)) && posMid b rest

/-- A matched sequence of acquire/release pairs: prefix-valid and balanced
overall. -/
def Matched (t : List LifeOp) : Prop :=
  okFrom 0 t = true ∧ endBal 0 t = 0

instance (t : List LifeOp) : Decidable (Matched t) := by
  unfold Matched; infer_instance

/-! ### Config-file path resolution (lines 366-381) -/

/-- The `~/` rewrite applied to `p_libvlc->psz_configfile` in
`libvlc_InternalInit`: when the configured value starts with the two
characters `'~'` `'/'`, build `"%s/%s"` from the user directory and the
value shifted by two; otherwise the value is untouched.  A `NULL`
`psz_configfile` skips the rewrite, hence the `Option`. -/
def resolveConfigFile (userdir : List Char) :
    Option (List Char) → Option (List Char)
  | none => none
  | some cfg =>
      match cfg with
      | c0 :: c1 :: rest =>
          if c0 = '~' ∧ c1 = '/' then some (userdir ++ '/' :: rest)
          else some (c0 :: c1 :: rest)
      | short => some short

/-! ### Verbosity (lines 204-212 and `VerboseCallback`, lines 1781-1791) -/

/-- Whether a character is skipped by the leading-whitespace scan of C `atoi`. -/
def isSpaceC (c : Char) : Bool :=
  c = ' ' || c = '\t' || c = '\n' || c = '\x0b' || c = '\x0c' || c = '\r'

/-- Digit accumulation of C `atoi` (stops at the first non-digit). -/
def atoiDigits (acc : Int) : List Char → Int
  | [] => acc
  | c :: rest =>
      if c.isDigit then atoiDigits (acc * 10 + (c.toNat - '0'.toNat : Int)) rest
      else acc

/-- C `atoi`: skip whitespace, read an optional sign, then digits. -/
def atoiC (s : List Char) : Int :=
  match s.dropWhile isSpaceC with
  | '-' :: rest => - atoiDigits 0 rest
  | '+' :: rest => atoiDigits 0 rest
  | rest => atoiDigits 0 rest

/-- Initial `i_verbose` computed by `libvlc_InternalCreate` (lines 204-206):
`atoi` of the `VLC_VERBOSE` environment variable when set, else `-1`. -/
def createVerbosity (env : Option (List Char)) : Int :=
  match env with
  | some s => atoiC s
  | none => -1

/-- `VerboseCallback` (lines 1781-1791): given the current `i_verbose` and
the new value of the `"verbose"` variable, store `__MIN(new, 2)` when the
new value is at least `-1`, and leave `i_verbose` unchanged otherwise. -/
def verboseCallback (cur newVal : Int) : Int :=
  if newVal ≥ -1 then min newVal 2 else cur

/-! ### Interface module selection in `libvlc_InternalAddIntf`
(lines 1128-1149, non-WIN32 build) -/

/-- The module name handed to `intf_Create`: if the process-global daemon
flag is set, blocking was requested, and no module name was passed, then an
empty or unset `"intf"` configuration value makes the code substitute
`"dummy"`; finally a still-`NULL` module name becomes `"$intf"`. -/
def addIntfModule (b_daemon b_block : Bool) (psz_module : Option (List Char))
    (intfCfg : Option (List Char)) : List Char :=
  let psz_module :=
    if b_daemon && b_block && psz_module.isNone then
      match intfCfg with
      | none => some "dummy".data
      | some [] => some "dummy".data
      | some _ => psz_module
    else psz_module
  match psz_module with
  | some m => m
  | none => "$intf".data

/-! ### Return codes

The numeric codes come from `vlc_error.h`, which is outside this file; only
their distinctness matters to the claims below. -/

def VLC_SUCCESS : Int := 0

def VLC_EGENERIC : Int := -666

/-! ### Language reload (lines 470-497, the ENABLE_NLS + WIN32/APPLE body) -/

/-- The module bank as far as the reload step observes it:
`b_cache_delete` is the plugin-cache-delete flag, `generation` is a ghost
counter of how many times `module_InitBank` has created this bank. -/
structure BankState where
  b_cache_delete : Bool
  generation : Nat
  deriving Repr, DecidableEq

/-- Locale/language reload in `libvlc_InternalInit`: when the configured
`"language"` is non-`NULL`, non-empty and differs from `"auto"`, save
`b_cache_delete`, run `SetLanguage`, tear the bank down with
`module_EndBank`, re-run `module_InitBank`, `config_LoadConfigFile` and
`config_LoadCmdLine`, and restore `b_cache_delete` on the fresh bank.
Returns the resulting bank and the number of extra
ModuleBankInit..CommandLineReapply runs performed. -/
def languageReload (lang : Option (List Char)) (bank : BankState) :
    BankState × Nat :=
  match lang with
  | none => (bank, 0)
  | some l =>
      if l = [] then (bank, 0)
      else if l = "auto".data then (bank, 0)
      else
        let b_cache_delete := bank.b_cache_delete
        let bank : BankState :=
          { b_cache_delete := false, generation := bank.generation + 1 }
        ({ bank with b_cache_delete := b_cache_delete }, 1)

/-! ### `libvlc_InternalCleanup` (lines 1011-1063) -/

/-- The child-object types the cleanup loops search for via
`vlc_object_find(..., FIND_CHILD)`. -/
inductive ObjType
  | intf
  | vout
  | aout
  | announce
  deriving Repr, DecidableEq

/-- A child object of the instance: its type and identity. -/
structure VlcObject where
  ty : ObjType
  oid : Nat
  deriving Repr, DecidableEq

/-- `vlc_object_find(p_libvlc, type, FIND_CHILD)`: first child of the
given type. -/
def vlc_object_find (ty : ObjType) (children : List VlcObject) :
    Option VlcObject :=
  children.find? (fun o => decide (o.ty = ty))

/-- One iteration of a cleanup `while` loop: detach the found child. -/
def detachFirst (ty : ObjType) (children : List VlcObject) : List VlcObject :=
  children.eraseP (fun o => decide (o.ty = ty))

/-- A `while( (p = vlc_object_find(type)) ) { stop; detach; destroy }` loop,
run with fuel (the loop removes one child per iteration, so the number of
children bounds the iterations).  Returns the destroyed objects in
destruction order and the remaining children. -/
def drainLoop (ty : ObjType) : Nat → List VlcObject →
    List VlcObject × List VlcObject
  | 0, children => ([], children)
  | fuel + 1, children =>
      match vlc_object_find ty children with
      | none => ([], children)
      | some o =>
          (o :: (drainLoop ty fuel (detachFirst ty children)).1,
           (drainLoop ty fuel (detachFirst ty children)).2)

/-- Drain every child of one type, as the cleanup loops do. -/
def drainChildren (ty : ObjType) (children : List VlcObject) :
    List VlcObject × List VlcObject :=
  drainLoop ty children.length children

/-- Observable destruction events of `libvlc_InternalCleanup` and
`libvlc_InternalDestroy`. -/
inductive CleanEv
  | removeIntf (oid : Nat)
  | removePlaylist (oid : Nat)
  | removeVout (oid : Nat)
  | removeAout (oid : Nat)
  | timersDump
  | removeAnnounce (oid : Nat)
  | freeInstanceRecord
  deriving Repr, DecidableEq

/-- The per-instance state the cleanup touches: the child objects, the
`p_playlist` field, and a ghost flag recording whether the instance record
itself is still allocated. -/
structure InstanceState where
  children : List VlcObject
  p_playlist : Nat
  recordAllocated : Bool
  deriving Repr, DecidableEq

/-- `libvlc_InternalCleanup`: stop and destroy all interfaces, destroy the
playlist (`playlist_ThreadDestroy(p_libvlc->p_playlist)`), destroy all
video outputs, all audio outputs, dump and clean the stats timers, and
destroy all announce handlers.  The instance record is not freed. -/
def libvlc_InternalCleanup (inst : InstanceState) :
    List CleanEv × InstanceState × Int :=
  let (intfs, c1) := drainChildren ObjType.intf inst.children
  let (vouts, c2) := drainChildren ObjType.vout c1
  let (aouts, c3) := drainChildren ObjType.aout c2
  let (anns, c4) := drainChildren ObjType.announce c3
  (intfs.map (fun o => CleanEv.removeIntf o.oid)
     ++ [CleanEv.removePlaylist inst.p_playlist]
     ++ vouts.map (fun o => CleanEv.removeVout o.oid)
     ++ aouts.map (fun o => CleanEv.removeAout o.oid)
     ++ [CleanEv.timersDump]
     ++ anns.map (fun o => CleanEv.removeAnnounce o.oid),
   { inst with children := c4 },
   VLC_SUCCESS)

/-! ### Single-instance coordination over D-Bus (lines 618-775) -/

/-- Observable events of the D-Bus block and of the code following it. -/
inductive DbusEv
  | errConnFail
  | errRequestName
  | registerRootObject
  | dbgAlreadyRegistered
  | errNoControl
  | warnOtherInstance
  | errDbusProblem
  | errOutOfMemory
  | sendMRL (mrl : List Char) (b_play : Bool)
  | ackMRL (mrl : List Char)
  | systemEndRun
  | playlistStart
  deriving Repr, DecidableEq

/-- How one `AddMRL` forwarding iteration can go: every non-`ok` outcome
makes the code print a diagnostic, run `system_End` and call `exit(0)`. -/
inductive SendResult
  | ok
  | methodCallNull
  | appendFail
  | sendFail
  | pendingNull
  deriving Repr, DecidableEq

/-- How the initialization flow leaves the D-Bus block: either `exit(code)`
was called, or control fell through and initialization continues locally. -/
inductive InitFlow
  | exited (code : Nat)
  | continuing
  deriving Repr, DecidableEq

/-- The `for( i_input = optind; ... )` forwarding loop (lines 683-745): for
each command-line MRL, build an `AddMRL` method call, append the MRL and the
`b_play` flag (`TRUE` unless `playlist-enqueue` is set, re-read from the
configuration on every iteration), send it, and block on the pending reply
before the next iteration.  Any failure prints a diagnostic, runs
`system_End` and exits with status 0; after the last MRL the code also runs
`system_End` and exits with status 0.  `sendRes` stands for the external
behaviour of the external bus on each MRL. -/
def forwardMRLs (enqueueCfg : Bool) (sendRes : List Char → SendResult) :
    List (List Char) → List DbusEv × InitFlow
  | [] => ([DbusEv.systemEndRun], InitFlow.exited 0)
  | mrl :: rest =>
      match sendRes mrl with
      | SendResult.ok =>
          let b_play := !enqueueCfg
          let (evs, flow) := forwardMRLs enqueueCfg sendRes rest
          (DbusEv.sendMRL mrl b_play :: DbusEv.ackMRL mrl :: evs, flow)
      | SendResult.methodCallNull =>
          ([DbusEv.errDbusProblem, DbusEv.systemEndRun], InitFlow.exited 0)
      | SendResult.appendFail =>
          ([DbusEv.errOutOfMemory, DbusEv.systemEndRun], InitFlow.exited 0)
      | SendResult.sendFail =>
          ([DbusEv.errDbusProblem, DbusEv.systemEndRun], InitFlow.exited 0)
      | SendResult.pendingNull =>
          ([DbusEv.errDbusProblem, DbusEv.systemEndRun], InitFlow.exited 0)

/-- The whole D-Bus block: connect to the session bus, request the
`org.videolan.vlc` name, and branch on ownership, the `one-instance`
configuration and the liveness probe of the `/org/videolan/vlc`
object of the peer.  Note which branches keep `InitFlow.continuing`: in particular the
probe-failure branch only prints `msg_Err` and falls through. -/
def singleInstanceCheck (connOk : Bool) (requestNameErr : Bool)
    (isPrimaryOwner : Bool) (oneInstanceCfg : Bool) (probeReplyOk : Bool)
    (enqueueCfg : Bool) (sendRes : List Char → SendResult)
    (mrls : List (List Char)) : List DbusEv × InitFlow :=
  if !connOk then ([DbusEv.errConnFail], InitFlow.continuing)
  else if requestNameErr then ([DbusEv.errRequestName], InitFlow.continuing)
  else if !isPrimaryOwner then
    if oneInstanceCfg then
      if !probeReplyOk then ([DbusEv.errNoControl], InitFlow.continuing)
      else
        let (evs, flow) := forwardMRLs enqueueCfg sendRes mrls
        (DbusEv.warnOtherInstance :: evs, flow)
    else ([DbusEv.dbgAlreadyRegistered], InitFlow.continuing)
  else ([DbusEv.registerRootObject], InitFlow.continuing)

/-- `libvlc_InternalInit` from the D-Bus block onward: when the block falls
through, initialization proceeds and eventually creates the local playlist
(`playlist_ThreadCreate`, line 869); when `exit` was called nothing after
the block runs. -/
def initFromDbus (connOk requestNameErr isPrimaryOwner oneInstanceCfg
    probeReplyOk enqueueCfg : Bool) (sendRes : List Char → SendResult)
    (mrls : List (List Char)) : List DbusEv × InitFlow :=
  let (evs, flow) := singleInstanceCheck connOk requestNameErr isPrimaryOwner
    oneInstanceCfg probeReplyOk enqueueCfg sendRes mrls
  match flow with
  | InitFlow.exited c => (evs, InitFlow.exited c)
  | InitFlow.continuing => (evs ++ [DbusEv.playlistStart], InitFlow.continuing)

/-! ### Bootstrap sequencing and failure unwind in `libvlc_InternalInit`
(the spine with all help/version/daemon/reset flags off and no language
reload; failure sites at lines 328-333, 341-348, 590-604 and 869-879) -/

/-- The actions of the initialization spine, in source order. -/
inductive InitAct
  | systemInitRun
  | setLanguageRun
  | localeInitRun
  | initBankRun
  | helpCreateTry
  | helpConfigDup
  | helpAttach
  | cmdLineParseEarly
  | helpDetach
  | pluginsLoad
  | configFileLoad
  | cmdLineParseFull
  | helpConfigFree
  | helpDestroy
  | endBankRun
  | systemConfigureRun
  | memcpySelect (found : Bool)
  | unneedMemcpy
  | playlistCreateTry
  deriving Repr, DecidableEq

/-- Resources acquired by individual steps and released during unwind. -/
inductive Res
  | bank
  | helpModule
  | memcpyModule
  deriving Repr, DecidableEq

/-- Which of the fallible steps succeed in a given run, plus whether
`module_Need(memcpy)` found a module. -/
structure InitFailures where
  helpCreateOk : Bool
  cmdEarlyOk : Bool
  cmdFullOk : Bool
  memcpyFound : Bool
  playlistOk : Bool
  deriving Repr, DecidableEq

/-- The initialization spine of `libvlc_InternalInit` with its literal
failure handling: the action trace it performs and the return value.  Each
recovery actions of each failure site are written here exactly as the code lists
them (e.g. lines 341-348: detach the help module, `config_Free` it, destroy
it, `module_EndBank`). -/
def internalInitSeq (f : InitFailures) : List InitAct × Int :=
  let pre := [InitAct.systemInitRun, InitAct.setLanguageRun,
              InitAct.localeInitRun, InitAct.initBankRun]
  if !f.helpCreateOk then
    (pre ++ [InitAct.helpCreateTry, InitAct.endBankRun], VLC_EGENERIC)
  else
    let pre := pre ++ [InitAct.helpCreateTry, InitAct.helpConfigDup,
                       InitAct.helpAttach, InitAct.cmdLineParseEarly]
    if !f.cmdEarlyOk then
      (pre ++ [InitAct.helpDetach, InitAct.helpConfigFree,
               InitAct.helpDestroy, InitAct.endBankRun], VLC_EGENERIC)
    else
      let pre := pre ++ [InitAct.helpDetach, InitAct.pluginsLoad,
                         InitAct.helpAttach, InitAct.helpDetach,
                         InitAct.configFileLoad, InitAct.helpAttach,
                         InitAct.cmdLineParseFull]
      if !f.cmdFullOk then
        (pre ++ [InitAct.helpDetach, InitAct.helpConfigFree,
                 InitAct.helpDestroy, InitAct.endBankRun], VLC_EGENERIC)
      else
        let pre := pre ++ [InitAct.helpDetach, InitAct.helpConfigFree,
                           InitAct.helpDestroy, InitAct.systemConfigureRun,
                           InitAct.memcpySelect f.memcpyFound,
                           InitAct.playlistCreateTry]
        if !f.playlistOk then
          (pre ++ (if f.memcpyFound then [InitAct.unneedMemcpy] else [])
               ++ [InitAct.endBankRun], VLC_EGENERIC)
        else
          (pre, VLC_SUCCESS)

/-- Resources acquired by an action. -/
def acquiredBy : InitAct → List Res
  | InitAct.initBankRun => [Res.bank]
  | InitAct.helpConfigDup => [Res.helpModule]
  | InitAct.memcpySelect found => if found then [Res.memcpyModule] else []
  | _ => []

/-- Resources released by an action. -/
def releasedBy : InitAct → List Res
  | InitAct.endBankRun => [Res.bank]
  | InitAct.helpDestroy => [Res.helpModule]
  | InitAct.unneedMemcpy => [Res.memcpyModule]
  | _ => []

/-- Resources an action reads or mutates. -/
def refsOf : InitAct → List Res
  | InitAct.helpConfigDup => [Res.helpModule]
  | InitAct.helpAttach => [Res.helpModule, Res.bank]
  | InitAct.helpDetach => [Res.helpModule]
  | InitAct.helpConfigFree => [Res.helpModule]
  | InitAct.helpDestroy => [Res.helpModule]
  | InitAct.endBankRun => [Res.bank]
  | InitAct.pluginsLoad => [Res.bank]
  | InitAct.unneedMemcpy => [Res.memcpyModule]
  | _ => []

/-- Resources held after a trace prefix, in acquisition order. -/
def heldAfter (acts : List InitAct) : List Res :=
  acts.foldl
    (fun held a =>
      (held.filter (fun r => !(releasedBy a).contains r)) ++ acquiredBy a)
    []

/-- The inverse of each resource acquisition, as the spec describes it. -/
def invActs : Res → List InitAct
  | Res.bank => [InitAct.endBankRun]
  | Res.helpModule => [InitAct.helpDetach, InitAct.helpConfigFree,
                       InitAct.helpDestroy]
  | Res.memcpyModule => [InitAct.unneedMemcpy]

/-- Spec-side unwind: the inverses of the held resources, in reverse
acquisition order. -/
def unwindFor (held : List Res) : List InitAct :=
  (held.reverse.map invActs).flatten

/-- The four failure-capable steps of the modelled spine. -/
inductive FailPoint
  | atHelpCreate
  | atCmdEarly
  | atCmdFull
  | atPlaylist
  deriving Repr, DecidableEq

/-- Inject a failure at exactly one step. -/
def failuresFor : FailPoint → InitFailures
  | FailPoint.atHelpCreate => ⟨false, true, true, true, true⟩
  | FailPoint.atCmdEarly => ⟨true, false, true, true, true⟩
  | FailPoint.atCmdFull => ⟨true, true, false, true, true⟩
  | FailPoint.atPlaylist => ⟨true, true, true, true, false⟩

/-- Length of the trace up to and including the attempt of the failing step. -/
def preLen : FailPoint → Nat
  | FailPoint.atHelpCreate => 5
  | FailPoint.atCmdEarly => 8
  | FailPoint.atCmdFull => 15
  | FailPoint.atPlaylist => 21

/-! ## Theorems -/

/-- C4: a configured config-file path starting with `~/` is rewritten to
the user directory, a `/`, and the remainder after the two-character
prefix; a value whose first two characters are not `~` `/` is returned
unchanged. -/
theorem C4_configfile_tilde_rewrite (userdir : List Char) :
    (∀ rest : List Char,
       resolveConfigFile userdir (some ('~' :: '/' :: rest))
         = some (userdir ++ '/' :: rest)) ∧
    (∀ cfg : List Char, cfg.take 2 ≠ ['~', '/'] →
       resolveConfigFile userdir (some cfg) = some cfg) := by
  constructor
  · intro rest
    simp [resolveConfigFile]
  · intro cfg h
    match cfg with
    | [] => rfl
    | [c] => rfl
    | c :: d :: rest =>
        have hcd : ¬ (c = '~' ∧ d = '/') := by
          rintro ⟨rfl, rfl⟩
          exact h rfl
        simp [resolveConfigFile, hcd]

/-- C4 witness: `~/foo/bar` resolves to `{userDir}/foo/bar` and `foo/bar`
is unchanged, for the user directory `/home/u`. -/
theorem C4_configfile_tilde_rewrite_witness :
    resolveConfigFile "/home/u".data (some "~/foo/bar".data)
      = some "/home/u/foo/bar".data ∧
    resolveConfigFile "/home/u".data (some "foo/bar".data)
      = some "foo/bar".data :=
  ⟨(C4_configfile_tilde_rewrite "/home/u".data).1 "foo/bar".data,
   (C4_configfile_tilde_rewrite "/home/u".data).2 "foo/bar".data (by decide)⟩

/-- C7: when the configured language is non-empty and differs from
`"auto"`, the module bank is torn down and re-initialized exactly once
more, and the cache-delete flag after the re-run equals its value before
the teardown. -/
theorem C7_language_reload_once_cache_preserved (l : List Char)
    (bank : BankState) (hne : l ≠ []) (hauto : l ≠ "auto".data) :
    languageReload (some l) bank
      = ({ b_cache_delete := bank.b_cache_delete,
           generation := bank.generation + 1 }, 1) := by
  simp [languageReload, hne, hauto]

/-- C7 witness: reloading with language `"fr"` and the cache-delete flag
set re-runs the bank initialization once and keeps the flag. -/
theorem C7_language_reload_witness :
    languageReload (some "fr".data) { b_cache_delete := true, generation := 3 }
      = ({ b_cache_delete := true, generation := 4 }, 1) :=
  C7_language_reload_once_cache_preserved "fr".data
    { b_cache_delete := true, generation := 3 } (by decide) (by decide)

/-- C8 counterexample: with `VLC_VERBOSE=7` in the environment,
`libvlc_InternalCreate` stores verbosity 7, which is outside the claimed
range `-1..2`. -/
theorem C8_counterexample :
    createVerbosity (some "7".data) = 7 ∧
    ¬ (createVerbosity (some "7".data) ≤ 2) := by
  constructor
  · rfl
  · decide

/-- C8 amended: without the environment override `Create` sets verbosity to
`-1`; the value set from `VLC_VERBOSE` is `atoi` of the variable,
unclamped, so it may lie outside `-1..2`; every update through
`VerboseCallback` keeps a value already in `-1..2` within that range
(values below `-1` leave the field unchanged, values above 2 are clamped
to 2). -/
theorem C8_verbosity_range (cur newVal : Int) :
    createVerbosity none = -1 ∧
    (-1 ≤ cur → cur ≤ 2 →
       -1 ≤ verboseCallback cur newVal ∧ verboseCallback cur newVal ≤ 2) ∧
    (newVal < -1 → verboseCallback cur newVal = cur) ∧
    (2 < newVal → verboseCallback cur newVal = 2) := by
  refine ⟨rfl, ?_, ?_, ?_⟩
  · intro h1 h2
    unfold verboseCallback
    split
    · constructor
      · rename_i hge
        exact le_min hge (by norm_num)
      · exact min_le_right _ _
    · exact ⟨h1, h2⟩
  · intro h
    unfold verboseCallback
    split
    · rename_i hge
      omega
    · rfl
  · intro h
    unfold verboseCallback
    split
    · rename_i hge
      omega
    · rename_i hge
      omega

/-- C8 witness: at current verbosity 1, a callback value of 9 is clamped
to 2 and a callback value of -5 leaves the field at 1. -/
theorem C8_verbosity_range_witness :
    verboseCallback 1 9 = 2 ∧ verboseCallback 1 (-5) = 1 :=
  ⟨(C8_verbosity_range 1 9).2.2.2 (by norm_num),
   (C8_verbosity_range 1 (-5)).2.2.1 (by norm_num)⟩

/-- C10: with the daemon flag set, blocking requested, no module name and
an unset or empty `"intf"` configuration value, `libvlc_InternalAddIntf`
selects the `"dummy"` module; a requested module name is always used as
given, and otherwise the default `"$intf"` specification is used. -/
theorem C10_daemon_dummy_intf (d b : Bool) (mod cfg : Option (List Char)) :
    (d = true → b = true → mod = none → cfg = none ∨ cfg = some [] →
       addIntfModule d b mod cfg = "dummy".data) ∧
    (∀ m, mod = some m → addIntfModule d b mod cfg = m) ∧
    (mod = none → ¬ (d = true ∧ b = true ∧ (cfg = none ∨ cfg = some [])) →
       addIntfModule d b mod cfg = "$intf".data) := by
  refine ⟨?_, ?_, ?_⟩
  · rintro rfl rfl rfl (rfl | rfl) <;> rfl
  · rintro m rfl
    cases d <;> cases b <;> simp [addIntfModule]
  · rintro rfl hnot
    cases d <;> cases b <;>
      simp only [addIntfModule, Bool.and_self, Bool.true_and, Bool.false_and,
        Bool.and_false, Bool.and_true, Option.isNone_none, if_true, if_false,
        Bool.not_eq_true] <;>
      first
        | rfl
        | (match cfg with
           | none => exact absurd ⟨rfl, rfl, Or.inl rfl⟩ hnot
           | some [] => exact absurd ⟨rfl, rfl, Or.inr rfl⟩ hnot
           | some (c :: cs) => rfl)

/-- C10 witness: a daemonized blocking call with no module and empty
`"intf"` value picks `"dummy"`; a requested `"rc"` module is used; without
the daemon flag the default `"$intf"` is used. -/
theorem C10_daemon_dummy_intf_witness :
    addIntfModule true true none (some []) = "dummy".data ∧
    addIntfModule true true (some "rc".data) none = "rc".data ∧
    addIntfModule false true none (some []) = "$intf".data :=
  ⟨(C10_daemon_dummy_intf true true none (some [])).1 rfl rfl rfl
      (Or.inr rfl),
   (C10_daemon_dummy_intf true true (some "rc".data) none).2.1 "rc".data rfl,
   (C10_daemon_dummy_intf false true none (some [])).2.2 rfl
      (by simp)⟩

/-- C3 counterexample: destroying the only instance runs the process-wide
teardown but leaves `libvlc_global.b_ready` at `true` — nothing in
`libvlc_InternalDestroy` resets it, contrary to the claim. -/
theorem C3_counterexample :
    (internalDestroyGlobal (internalCreateGlobal 0 initialGlobal)).i_instances
        = 0 ∧
    (internalDestroyGlobal (internalCreateGlobal 0 initialGlobal)).teardownRuns
        = 1 ∧
    (internalDestroyGlobal (internalCreateGlobal 0 initialGlobal)).b_ready
        = true := by
  refine ⟨?_, ?_, ?_⟩ <;> decide

/-- C3 amended: when the decrement brings the instance count to zero,
`libvlc_InternalDestroy` performs the process-wide cleanup (`system_End`,
`LocaleDeinit`) but leaves `b_ready` unchanged, so a subsequent first
`libvlc_InternalCreate` does not recompute the CPU capabilities. -/
theorem C3_last_destroy_no_ready_reset (s : GlobalState) (cpu : Nat)
    (hone : s.i_instances = 1) (hready : s.b_ready = true) :
    (internalDestroyGlobal s).i_instances = 0 ∧
    (internalDestroyGlobal s).teardownRuns = s.teardownRuns + 1 ∧
    (internalDestroyGlobal s).b_ready = true ∧
    (internalCreateGlobal cpu (internalDestroyGlobal s)).capComputes
        = s.capComputes := by
  have h1 : internalDestroyGlobal s
      = { s with i_instances := 0, teardownRuns := s.teardownRuns + 1 } := by
    simp [internalDestroyGlobal, hone]
  refine ⟨by rw [h1], by rw [h1], by rw [h1]; exact hready, ?_⟩
  rw [h1]
  simp [internalCreateGlobal, hready]

/-- C3 amended witness: from one live instance with `b_ready` set, the
destroy runs teardown once, keeps `b_ready`, and a re-create does not
recompute capabilities. -/
theorem C3_last_destroy_no_ready_reset_witness :
    ((internalDestroyGlobal (internalCreateGlobal 0 initialGlobal)).i_instances
        = 0 ∧
     (internalDestroyGlobal (internalCreateGlobal 0 initialGlobal)).teardownRuns
        = (internalCreateGlobal 0 initialGlobal).teardownRuns + 1 ∧
     (internalDestroyGlobal (internalCreateGlobal 0 initialGlobal)).b_ready
        = true ∧
     (internalCreateGlobal 5
        (internalDestroyGlobal
          (internalCreateGlobal 0 initialGlobal))).capComputes
        = (internalCreateGlobal 0 initialGlobal).capComputes) :=
  C3_last_destroy_no_ready_reset (internalCreateGlobal 0 initialGlobal) 5
    (by decide) (by decide)

/-- Creating an instance never changes the teardown counter. -/
theorem internalCreateGlobal_teardownRuns (cpu : Nat) (s : GlobalState) :
    (internalCreateGlobal cpu s).teardownRuns = s.teardownRuns := by
  simp only [internalCreateGlobal]
  split <;> rfl

/-- Creating an instance increments the count (mod `2 ^ 32`). -/
theorem internalCreateGlobal_i_instances (cpu : Nat) (s : GlobalState) :
    (internalCreateGlobal cpu s).i_instances
      = (s.i_instances + 1) % wUINT := by
  simp only [internalCreateGlobal]
  split <;> rfl

/-- Closed form of `internalDestroyGlobal` when the count is positive. -/
theorem internalDestroyGlobal_of_pos (s : GlobalState)
    (hpos : 0 < s.i_instances) :
    internalDestroyGlobal s
      = if s.i_instances - 1 = 0 then
          { s with i_instances := s.i_instances - 1,
                   teardownRuns := s.teardownRuns + 1 }
        else { s with i_instances := s.i_instances - 1 } := by
  have hne : ¬ s.i_instances = 0 := by omega
  simp only [internalDestroyGlobal, hne, if_false]

/-- Destroying from a positive count decrements the count. -/
theorem internalDestroyGlobal_i_instances (s : GlobalState)
    (hpos : 0 < s.i_instances) :
    (internalDestroyGlobal s).i_instances = s.i_instances - 1 := by
  rw [internalDestroyGlobal_of_pos s hpos]
  split <;> rfl

/-- Destroying from a count above one does not run a teardown. -/
theorem internalDestroyGlobal_teardown_untouched (s : GlobalState)
    (hgt : 1 < s.i_instances) :
    (internalDestroyGlobal s).teardownRuns = s.teardownRuns := by
  rw [internalDestroyGlobal_of_pos s (by omega)]
  have h : ¬ s.i_instances - 1 = 0 := by omega
  simp [h]

/-- Destroying the last instance runs the teardown exactly once. -/
theorem internalDestroyGlobal_teardown_last (s : GlobalState)
    (hone : s.i_instances = 1) :
    (internalDestroyGlobal s).teardownRuns = s.teardownRuns + 1 := by
  rw [internalDestroyGlobal_of_pos s (by omega)]
  simp [hone]

/-- The running count tracks the acquire/release balance along any
prefix-valid trace short enough for the unsigned counter not to wrap. -/
theorem runOps_i_instances (cpu : Nat) :
    ∀ (t : List LifeOp) (bal : Nat) (s : GlobalState),
      okFrom bal t = true → s.i_instances = bal → bal + t.length < wUINT →
      (runOps cpu s t).i_instances = endBal bal t := by
  intro t
  induction t with
  | nil =>
      intro bal s _ hs _
      simpa [runOps, endBal] using hs
  | cons op rest ih =>
      intro bal s hok hs hlen
      cases op with
      | acquire =>
          simp only [runOps, endBal]
          refine ih (bal + 1) _ (by simpa [okFrom] using hok) ?_ ?_
          · rw [internalCreateGlobal_i_instances, hs]
            exact Nat.mod_eq_of_lt (by simp at hlen; omega)
          · simp at hlen ⊢
            omega
      | release =>
          simp only [okFrom, Bool.and_eq_true, decide_eq_true_eq] at hok
          obtain ⟨hpos, hok⟩ := hok
          simp only [runOps, endBal]
          refine ih (bal - 1) _ hok ?_ ?_
          · rw [internalDestroyGlobal_i_instances s (by omega), hs]
          · simp at hlen ⊢
            omega

/-- Along a trace whose balance stays strictly positive until the very
end and ends at zero, the teardown fires exactly at the final release. -/
theorem runOps_teardown_once (cpu : Nat) :
    ∀ (t : List LifeOp) (bal : Nat) (s : GlobalState),
      okFrom bal t = true → endBal bal t = 0 → posMid bal t = true →
      s.i_instances = bal → 0 < bal → bal + t.length < wUINT →
      (runOps cpu s t).teardownRuns = s.teardownRuns + 1 := by
  intro t
  induction t with
  | nil =>
      intro bal s _ hend _ _ hpos _
      simp [endBal] at hend
      omega
  | cons op rest ih =>
      intro bal s hok hend hmid hs hpos hlen
      cases op with
      | acquire =>
          simp only [okFrom] at hok
          simp only [endBal] at hend
          simp only [posMid, Bool.and_eq_true] at hmid
          simp only [runOps]
          rw [ih (bal + 1) _ hok hend hmid.2 ?_ (by omega) ?_]
          · rw [internalCreateGlobal_teardownRuns]
          · rw [internalCreateGlobal_i_instances, hs]
            exact Nat.mod_eq_of_lt (by simp at hlen; omega)
          · simp at hlen ⊢
            omega
      | release =>
          simp only [okFrom, Bool.and_eq_true, decide_eq_true_eq] at hok
          obtain ⟨hpos1, hok⟩ := hok
          simp only [endBal] at hend
          simp only [posMid, Bool.and_eq_true, Bool.or_eq_true,
            decide_eq_true_eq] at hmid
          by_cases hb1 : bal = 1
          · have hrest : rest = [] := by
              rcases hmid.1 with h | h
              · exact h
              · omega
            subst hrest
            simp only [runOps]
            exact internalDestroyGlobal_teardown_last s (by omega)
          · have hgt : 1 < s.i_instances := by omega
            simp only [runOps]
            rw [ih (bal - 1) _ hok hend hmid.2 ?_ (by omega) ?_]
            · rw [internalDestroyGlobal_teardown_untouched s hgt]
            · rw [internalDestroyGlobal_i_instances s (by omega), hs]
            · simp at hlen ⊢
              omega

/-- C1 counterexample: the matched sequence Acquire, Release, Acquire,
Release (two matched pairs, N = 2) ends with `i_instances = 0` but runs the
process-wide teardown twice — once at each Release that brings the count to
zero — not exactly once at the Nth Release. -/
theorem C1_counterexample :
    Matched [LifeOp.acquire, LifeOp.release, LifeOp.acquire,
             LifeOp.release] ∧
    (runOps 0 initialGlobal
       [LifeOp.acquire, LifeOp.release, LifeOp.acquire,
        LifeOp.release]).i_instances = 0 ∧
    (runOps 0 initialGlobal
       [LifeOp.acquire, LifeOp.release, LifeOp.acquire,
        LifeOp.release]).teardownRuns = 2 := by
  refine ⟨by decide, by decide, by decide⟩

/-- C1 amended: for every non-empty matched sequence of Acquire/Release
pairs (shorter than `2 ^ 32`), the instance count is 0 after all complete;
and provided the count stays strictly positive until the final Release, the
process-wide teardown (`system_End`, `LocaleDeinit`) runs exactly once,
at that final Release.  (A matched sequence whose count returns to zero
earlier re-runs the teardown at every such Release, as the counterexample
shows.) -/
theorem C1_matched_pairs_teardown (cpu : Nat) (t : List LifeOp)
    (hne : t ≠ []) (hlen : t.length < wUINT) (hm : Matched t) :
    (runOps cpu initialGlobal t).i_instances = 0 ∧
    (posMid 0 t = true →
       (runOps cpu initialGlobal t).teardownRuns = 1) := by
  obtain ⟨hok, hend⟩ := hm
  constructor
  · rw [runOps_i_instances cpu t 0 initialGlobal hok rfl (by omega), hend]
  · intro hmid
    match t with
    | [] => exact absurd rfl hne
    | LifeOp.release :: rest => simp [okFrom] at hok
    | LifeOp.acquire :: rest =>
        simp only [okFrom] at hok
        simp only [endBal] at hend
        simp only [posMid, Bool.and_eq_true] at hmid
        simp only [runOps]
        rw [runOps_teardown_once cpu rest 1 _ hok hend hmid.2 ?_ (by omega) ?_]
        · rw [internalCreateGlobal_teardownRuns]
          rfl
        · rw [internalCreateGlobal_i_instances]
          decide
        · simp at hlen ⊢
          omega


/-- C1 amended witness: the nested matched sequence Acquire, Acquire,
Release, Release ends at count 0 with the teardown having run exactly
once. -/
theorem C1_matched_pairs_teardown_witness :
    (runOps 0 initialGlobal
       [LifeOp.acquire, LifeOp.acquire, LifeOp.release,
        LifeOp.release]).i_instances = 0 ∧
    (runOps 0 initialGlobal
       [LifeOp.acquire, LifeOp.acquire, LifeOp.release,
        LifeOp.release]).teardownRuns = 1 := by
  have h := C1_matched_pairs_teardown 0
    [LifeOp.acquire, LifeOp.acquire, LifeOp.release, LifeOp.release]
    (by decide) (by decide) (by decide)
  exact ⟨h.1, h.2 (by decide)⟩

/-- Elements selected by `p` after erasing the first hit: the found element
heads the selection. -/
theorem filter_eq_cons_filter_eraseP {α : Type} (p : α → Bool) :
    ∀ (l : List α) (o : α), l.find? p = some o →
      l.filter p = o :: (l.eraseP p).filter p := by
  intro l
  induction l with
  | nil => intro o h; cases h
  | cons c rest ih =>
      intro o h
      by_cases hc : p c
      · rw [List.find?_cons_of_pos _ hc] at h
        cases h
        simp [List.filter_cons, List.eraseP_cons, hc]
      · rw [List.find?_cons_of_neg _ hc] at h
        simp only [List.filter_cons, List.eraseP_cons, hc, Bool.false_eq_true,
          if_false, cond_false]
        exact ih o h

/-- Erasing the first `p`-hit leaves the non-`p` elements untouched. -/
theorem filter_not_eraseP {α : Type} (p : α → Bool) :
    ∀ l : List α,
      (l.eraseP p).filter (fun x => !p x) = l.filter (fun x => !p x) := by
  intro l
  induction l with
  | nil => rfl
  | cons c rest ih =>
      by_cases hc : p c
      · simp [List.eraseP_cons, List.filter_cons, hc]
      · simp [List.eraseP_cons, List.filter_cons, hc, ih]

/-- The find-and-detach `while` loop of `libvlc_InternalCleanup` destroys
exactly the children of the requested type, in their original order, and
leaves exactly the others. -/
theorem drainLoop_eq_filter (ty : ObjType) :
    ∀ (fuel : Nat) (cs : List VlcObject), cs.length ≤ fuel →
      drainLoop ty fuel cs
        = (cs.filter (fun o => decide (o.ty = ty)),
           cs.filter (fun o => !decide (o.ty = ty))) := by
  intro fuel
  induction fuel with
  | zero =>
      intro cs hlen
      have : cs = [] := List.length_eq_zero.mp (Nat.le_zero.mp hlen)
      subst this
      rfl
  | succ fuel ih =>
      intro cs hlen
      match hfind : cs.find? (fun o => decide (o.ty = ty)) with
      | none =>
          have hall := List.find?_eq_none.mp hfind
          have h1 : cs.filter (fun o => decide (o.ty = ty)) = [] := by
            rw [List.filter_eq_nil_iff]
            intro a ha
            exact hall a ha
          have h2 : cs.filter (fun o => !decide (o.ty = ty)) = cs := by
            rw [List.filter_eq_self]
            intro a ha
            simpa using hall a ha
          simp only [drainLoop, vlc_object_find, hfind, h1, h2]
      | some o =>
          have hp := List.find?_some hfind
          have hmem2 : o ∈ cs := List.mem_of_find?_eq_some hfind
          have hlen2 :
              (cs.eraseP (fun o => decide (o.ty = ty))).length ≤ fuel := by
            have h :=
              @List.length_eraseP_add_one _ (fun o => decide (o.ty = ty))
                cs o hmem2 hp
            omega
          simp only [drainLoop, vlc_object_find, detachFirst, hfind]
          rw [ih _ hlen2]
          rw [← filter_eq_cons_filter_eraseP _ cs o hfind,
              filter_not_eraseP]

/-- Children of one type are unaffected by removing those of another. -/
theorem filter_ty_comm (ty1 ty2 : ObjType) (h : ty1 ≠ ty2)
    (cs : List VlcObject) :
    ((cs.filter fun o => !decide (o.ty = ty2)).filter
        fun o => decide (o.ty = ty1))
      = cs.filter fun o => decide (o.ty = ty1) := by
  induction cs with
  | nil => rfl
  | cons c rest ih =>
      by_cases h2 : c.ty = ty2
      · have h1 : ¬ c.ty = ty1 := by
          rw [h2]
          exact fun hh => h hh.symm
        simp [List.filter_cons, h1, h2, ih, h, Ne.symm h]
      · by_cases h1 : c.ty = ty1 <;>
          simp [List.filter_cons, h1, h2, ih, h, Ne.symm h]

/-- C9: for every instance, `libvlc_InternalCleanup` destroys all owned
handles in exactly the order interfaces, playlist, video outputs, audio
outputs, announce handlers (with the stats-timer dump between the audio
outputs and the announce handlers), each category in child order; it
returns `VLC_SUCCESS` and the instance record itself survives the call. -/
theorem C9_cleanup_order (inst : InstanceState) :
    (libvlc_InternalCleanup inst).1
      = (inst.children.filter fun o => decide (o.ty = ObjType.intf)).map
          (fun o => CleanEv.removeIntf o.oid)
        ++ [CleanEv.removePlaylist inst.p_playlist]
        ++ (inst.children.filter fun o => decide (o.ty = ObjType.vout)).map
            (fun o => CleanEv.removeVout o.oid)
        ++ (inst.children.filter fun o => decide (o.ty = ObjType.aout)).map
            (fun o => CleanEv.removeAout o.oid)
        ++ [CleanEv.timersDump]
        ++ (inst.children.filter fun o => decide (o.ty = ObjType.announce)).map
            (fun o => CleanEv.removeAnnounce o.oid) ∧
    (libvlc_InternalCleanup inst).2.1.recordAllocated = inst.recordAllocated ∧
    (libvlc_InternalCleanup inst).2.2 = VLC_SUCCESS ∧
    CleanEv.freeInstanceRecord ∉ (libvlc_InternalCleanup inst).1 := by
  have h1 := drainLoop_eq_filter ObjType.intf inst.children.length
    inst.children (le_refl _)
  have h2 := drainLoop_eq_filter ObjType.vout
    (inst.children.filter fun o => !decide (o.ty = ObjType.intf)).length
    (inst.children.filter fun o => !decide (o.ty = ObjType.intf)) (le_refl _)
  have h3 := drainLoop_eq_filter ObjType.aout _
    ((inst.children.filter fun o => !decide (o.ty = ObjType.intf)).filter
        fun o => !decide (o.ty = ObjType.vout)) (le_refl _)
  have h4 := drainLoop_eq_filter ObjType.announce _
    (((inst.children.filter fun o => !decide (o.ty = ObjType.intf)).filter
        fun o => !decide (o.ty = ObjType.vout)).filter
        fun o => !decide (o.ty = ObjType.aout)) (le_refl _)
  have hv : ((inst.children.filter fun o => !decide (o.ty = ObjType.intf)).filter
      fun o => decide (o.ty = ObjType.vout))
      = inst.children.filter fun o => decide (o.ty = ObjType.vout) :=
    filter_ty_comm ObjType.vout ObjType.intf (by decide) _
  have ha : (((inst.children.filter fun o => !decide (o.ty = ObjType.intf)).filter
      fun o => !decide (o.ty = ObjType.vout)).filter
      fun o => decide (o.ty = ObjType.aout))
      = inst.children.filter fun o => decide (o.ty = ObjType.aout) := by
    rw [filter_ty_comm ObjType.aout ObjType.vout (by decide),
        filter_ty_comm ObjType.aout ObjType.intf (by decide)]
  have hn : ((((inst.children.filter fun o => !decide (o.ty = ObjType.intf)).filter
      fun o => !decide (o.ty = ObjType.vout)).filter
      fun o => !decide (o.ty = ObjType.aout)).filter
      fun o => decide (o.ty = ObjType.announce))
      = inst.children.filter fun o => decide (o.ty = ObjType.announce) := by
    rw [filter_ty_comm ObjType.announce ObjType.aout (by decide),
        filter_ty_comm ObjType.announce ObjType.vout (by decide),
        filter_ty_comm ObjType.announce ObjType.intf (by decide)]
  refine ⟨?_, ?_, ?_, ?_⟩
  · simp only [libvlc_InternalCleanup, drainChildren, h1, h2, h3, h4, hv,
      ha, hn]
  · simp only [libvlc_InternalCleanup, drainChildren, h1, h2, h3, h4]
  · simp only [libvlc_InternalCleanup, drainChildren, h1, h2, h3, h4]
  · simp only [libvlc_InternalCleanup, drainChildren, h1, h2, h3, h4]
    simp [List.mem_append]

/-- Forwarding MRLs to a peer always ends in `exit(0)`. -/
theorem forwardMRLs_exits_zero (enq : Bool) (sr : List Char → SendResult) :
    ∀ mrls : List (List Char), (forwardMRLs enq sr mrls).2 = InitFlow.exited 0 := by
  intro mrls
  induction mrls with
  | nil => rfl
  | cons mrl rest ih =>
      simp only [forwardMRLs]
      match sr mrl with
      | SendResult.ok => simpa [forwardMRLs] using ih
      | SendResult.methodCallNull => rfl
      | SendResult.appendFail => rfl
      | SendResult.sendFail => rfl
      | SendResult.pendingNull => rfl

/-- A failing forwarding iteration leaves a diagnostic in the trace. -/
theorem forwardMRLs_diag_on_failure (enq : Bool)
    (sr : List Char → SendResult) :
    ∀ mrls : List (List Char), (∃ mrl ∈ mrls, sr mrl ≠ SendResult.ok) →
      DbusEv.errDbusProblem ∈ (forwardMRLs enq sr mrls).1 ∨
      DbusEv.errOutOfMemory ∈ (forwardMRLs enq sr mrls).1 := by
  intro mrls
  induction mrls with
  | nil =>
      rintro ⟨mrl, hmem, _⟩
      cases hmem
  | cons m rest ih =>
      rintro ⟨mrl, hmem, hne⟩
      match hm : sr m with
      | SendResult.ok =>
          have hmem2 : mrl ∈ rest := by
            rcases List.mem_cons.mp hmem with rfl | h
            · exact absurd hm hne
            · exact h
          have h := ih ⟨mrl, hmem2, hne⟩
          simp only [forwardMRLs, hm]
          rcases h with h | h
          · exact Or.inl (by simp [h])
          · exact Or.inr (by simp [h])
      | SendResult.methodCallNull => simp [forwardMRLs, hm]
      | SendResult.appendFail => simp [forwardMRLs, hm]
      | SendResult.sendFail => simp [forwardMRLs, hm]
      | SendResult.pendingNull => simp [forwardMRLs, hm]

/-- C2 counterexample: with a registered peer, single-instance mode on and
no reply to the liveness probe, the code prints the diagnostic but falls
through and keeps initializing (it never exits); and a forwarding send
failure makes the code exit with status 0, not a non-zero status. -/
theorem C2_counterexample :
    singleInstanceCheck true false false true false false
        (fun _ => SendResult.ok) []
      = ([DbusEv.errNoControl], InitFlow.continuing) ∧
    initFromDbus true false false true true false
        (fun _ => SendResult.sendFail) ["a.mp4".data]
      = ([DbusEv.warnOtherInstance, DbusEv.errDbusProblem,
          DbusEv.systemEndRun], InitFlow.exited 0) := by
  exact ⟨rfl, rfl⟩

/-- C2 amended: when the liveness probe of the peer gets no reply, the code
emits the user-facing diagnostic and continues initializing locally without
exiting; when a forwarding send fails, the code emits a diagnostic, runs
`system_End` and exits — with status 0, as it also does after successful
forwarding. -/
theorem C2_peer_unreachable_and_forward_failure (enq : Bool)
    (sr : List Char → SendResult) (mrls : List (List Char)) :
    singleInstanceCheck true false false true false enq sr mrls
        = ([DbusEv.errNoControl], InitFlow.continuing) ∧
    (forwardMRLs enq sr mrls).2 = InitFlow.exited 0 ∧
    ((∃ mrl ∈ mrls, sr mrl ≠ SendResult.ok) →
       DbusEv.errDbusProblem ∈ (forwardMRLs enq sr mrls).1 ∨
       DbusEv.errOutOfMemory ∈ (forwardMRLs enq sr mrls).1) :=
  ⟨rfl, forwardMRLs_exits_zero enq sr mrls,
   forwardMRLs_diag_on_failure enq sr mrls⟩

/-- C2 amended witness: with one MRL whose send fails, the forwarding path
exits with status 0 and the diagnostic is in the trace. -/
theorem C2_peer_unreachable_and_forward_failure_witness :
    singleInstanceCheck true false false true false false
        (fun _ => SendResult.sendFail) ["a.mp4".data]
      = ([DbusEv.errNoControl], InitFlow.continuing) ∧
    (forwardMRLs false (fun _ => SendResult.sendFail) ["a.mp4".data]).2
      = InitFlow.exited 0 ∧
    (DbusEv.errDbusProblem
        ∈ (forwardMRLs false (fun _ => SendResult.sendFail)
            ["a.mp4".data]).1 ∨
     DbusEv.errOutOfMemory
        ∈ (forwardMRLs false (fun _ => SendResult.sendFail)
            ["a.mp4".data]).1) := by
  have h := C2_peer_unreachable_and_forward_failure false
    (fun _ => SendResult.sendFail) ["a.mp4".data]
  exact ⟨h.1, h.2.1,
    h.2.2 ⟨"a.mp4".data, List.mem_singleton.mpr rfl, by decide⟩⟩

/-- Forwarding with a fully responsive peer produces one send and one
blocking acknowledgment per MRL, in order, then `system_End` and
`exit(0)`. -/
theorem forwardMRLs_all_ok (enq : Bool) (sr : List Char → SendResult) :
    ∀ mrls : List (List Char), (∀ m ∈ mrls, sr m = SendResult.ok) →
      forwardMRLs enq sr mrls
        = ((mrls.map fun m =>
              [DbusEv.sendMRL m (!enq), DbusEv.ackMRL m]).flatten
             ++ [DbusEv.systemEndRun],
           InitFlow.exited 0) := by
  intro mrls
  induction mrls with
  | nil => intro _; rfl
  | cons m rest ih =>
      intro hall
      have hm : sr m = SendResult.ok := hall m (List.mem_cons_self m rest)
      have hrest : ∀ x ∈ rest, sr x = SendResult.ok := fun x hx =>
        hall x (List.mem_cons_of_mem m hx)
      simp [forwardMRLs, hm, ih hrest]

/-- C5: with a responsive peer owning the endpoint, single-instance mode on
and every send acknowledged, the initialization performs exactly one
forwarding call per work item, in the caller-given order, each immediately
followed by its blocking acknowledgment before the next send; the per-item
replace-vs-enqueue flag `b_play` is the negation of the `playlist-enqueue`
configuration; the process exits with code 0 and the local playlist is
never created. -/
theorem C5_forwarding_ordered (enq : Bool) (sr : List Char → SendResult)
    (mrls : List (List Char)) (hall : ∀ m ∈ mrls, sr m = SendResult.ok) :
    initFromDbus true false false true true enq sr mrls
      = (DbusEv.warnOtherInstance ::
           ((mrls.map fun m =>
               [DbusEv.sendMRL m (!enq), DbusEv.ackMRL m]).flatten
              ++ [DbusEv.systemEndRun]),
         InitFlow.exited 0) ∧
    DbusEv.playlistStart ∉ (initFromDbus true false false true true
        enq sr mrls).1 := by
  have hfwd := forwardMRLs_all_ok enq sr mrls hall
  have hmain : initFromDbus true false false true true enq sr mrls
      = (DbusEv.warnOtherInstance ::
           ((mrls.map fun m =>
               [DbusEv.sendMRL m (!enq), DbusEv.ackMRL m]).flatten
              ++ [DbusEv.systemEndRun]),
         InitFlow.exited 0) := by
    simp only [initFromDbus, singleInstanceCheck, hfwd]
    rfl
  refine ⟨hmain, ?_⟩
  rw [hmain]
  simp

/-- C5 witness: the two work items `a.mp4` then `b.mp4`, with
`playlist-enqueue` unset, produce exactly two ordered, individually
acknowledged forwarding calls with `b_play = true`, exit code 0 and no
local playlist. -/
theorem C5_forwarding_ordered_witness :
    initFromDbus true false false true true false
        (fun _ => SendResult.ok) ["a.mp4".data, "b.mp4".data]
      = ([DbusEv.warnOtherInstance,
          DbusEv.sendMRL "a.mp4".data true, DbusEv.ackMRL "a.mp4".data,
          DbusEv.sendMRL "b.mp4".data true, DbusEv.ackMRL "b.mp4".data,
          DbusEv.systemEndRun], InitFlow.exited 0) ∧
    DbusEv.playlistStart ∉ (initFromDbus true false false true true false
        (fun _ => SendResult.ok) ["a.mp4".data, "b.mp4".data]).1 := by
  have h := C5_forwarding_ordered false (fun _ => SendResult.ok)
    ["a.mp4".data, "b.mp4".data] (fun m _ => rfl)
  exact ⟨h.1, h.2⟩

/-- C6: injecting a failure at any of the fallible bootstrap steps makes
`libvlc_InternalInit` return the generic failure and run, after the failing
step, exactly the inverses of the resources acquired by the
previously-succeeded steps, in reverse acquisition order; every action of
that unwind references only resources acquired strictly before the failing
step. -/
theorem C6_failure_unwind_reverse (k : FailPoint) :
    (internalInitSeq (failuresFor k)).2 = VLC_EGENERIC ∧
    (internalInitSeq (failuresFor k)).1.drop (preLen k)
      = unwindFor
          (heldAfter ((internalInitSeq (failuresFor k)).1.take (preLen k))) ∧
    ((internalInitSeq (failuresFor k)).1.drop (preLen k)).all
        (fun a => (refsOf a).all
          (fun r =>
            (heldAfter
              ((internalInitSeq (failuresFor k)).1.take (preLen k))).contains
                r))
      = true := by
  cases k <;> exact ⟨by decide, by decide, by decide⟩

end Libvlc
